import Mathlib

/-!
# Verification of the PyFunceble process-manager core

A shallow embedding of `PyFunceble/ext/process_manager/core.py`
(`ProcessManagerCore`).  Workers live in a heap (`MState.workers`) keyed by
a numeric id `wid`; the two cohorts `created_workers` / `running_workers`
store ids, which models Python's object identity (the same worker object may
sit in both Python lists at once).  Every manager operation returns, besides
the new state, a trace of observable `Event`s: calls made on worker objects
(`join`, `terminate`, `start`, the three queue pushes) and the setting of the
global exit event.  Fallible operations return `Except` or carry an
`Option` error component modelling a raised Python exception.

`random.choice` is modelled by threading an arbitrary choice oracle
`pick : List Nat → Nat` (used modulo the list length); `worker.terminate()`
is modelled as ending the process at once, so `is_alive()` reports `false`
from then on.
-/

namespace ProcManager

/-- The message envelope: payload plus source and optional destination
worker names (spec §3); `payload` is kept as a `String`. -/
structure Envelope where
  payload : String
  source_worker : String
  destination_worker : Option String
deriving DecidableEq, Repr

/-- The manager-visible face of a worker object: its identity `wid`
(Python object identity), its `name`, whether the process `is_alive()`,
its stored `exception` slot `(error, trace)`, and the
`concurrent_workers_names` snapshot assigned at spawn time. -/
structure Worker where
  wid : Nat
  name : String
  alive : Bool
  exception : Option (String × String)
  concurrent_workers_names : List String
deriving DecidableEq, Repr

/-- Observable effects of a manager operation: the calls it performs on
worker objects and on the shared exit event. -/
inductive Event where
  | spawned (wid : Nat)
  | startedWorker (wid : Nat)
  | joined (wid : Nat)
  | terminatedWorker (wid : Nat)
  | exitEventSet
  | pushedInput (wid : Nat) (e : Envelope)
  | pushedOutput (wid : Nat) (e : Envelope)
  | pushedConf (wid : Nat) (e : Envelope)
deriving DecidableEq, Repr

/-- The manager's own state (the fields of `ProcessManagerCore` the claims
touch).  `workers` is the heap of all worker objects ever spawned; the
cohorts hold worker ids.  `worker_class_set` models whether the mandatory
`WORKER_CLASS` attribute is bound. -/
structure MState where
  std_name : String
  worker_class_set : Bool
  workers : List Worker
  created_workers : List Nat
  running_workers : List Nat
  max_workers : Int
  global_exit_event : Bool
  daemon : Bool
  targeted_processing : Bool
  delay_message_sharing : Bool
  delay_shutdown : Bool
  raise_exception : Bool
  input_datasets : List String
  output_datasets : List String
  configuration_datasets : List String
deriving DecidableEq, Repr

/-- Python `x or default` on an optional boolean (`None` and `False` are
falsy, so the default wins in both cases). -/
def pyOrBool (v : Option Bool) (d : Bool) : Bool :=
  match v with
  | none => d
  | some b => if b then b else d

/-- Python `x or default` on an optional integer (`None` and `0` are falsy). -/
def pyOrInt (v : Option Int) (d : Int) : Int :=
  match v with
  | none => d
  | some n => if n = 0 then d else n

/-- The `cpu_count` property: `AVAILABLE_CPU_COUNT - 2` when more than two
CPUs are available, else `AVAILABLE_CPU_COUNT` (core.py lines 396-409). -/
def cpu_count (avail : Nat) : Nat :=
  if avail > 2 then avail - 2 else avail

/-- A value given to the `max_workers` property setter; Python distinguishes
integers from everything else via `isinstance(value, int)`. -/
inductive PyVal where
  | vint (n : Int)
  | vstr (s : String)
deriving DecidableEq, Repr

/-- The `max_workers` property setter (core.py lines 419-434): raises
`TypeError` on a non-integer, else stores `max(1, value)`. -/
def setMaxWorkers (s : MState) (v : PyVal) : Except String MState :=
  match v with
  | .vint n => .ok { s with max_workers := max 1 n }
  | .vstr _ => .error "<value> should be <class int>."

/-- `__init__` (core.py lines 246-322), restricted to the fields this
development tracks.  Note `self._max_workers = max_workers or self.cpu_count`
assigns the backing field directly — the setter (and so its clamping and
type check) is bypassed — and every `x or default` boolean swallows an
explicit `False`. -/
def initManager (avail : Nat) (max_workers : Option Int)
    (daemon targeted_processing delay_message_sharing delay_shutdown
      raise_exception : Option Bool) : MState :=
  { std_name := "pyfunceble-process-manager"
    worker_class_set := true
    workers := []
    created_workers := []
    running_workers := []
    max_workers := pyOrInt max_workers (cpu_count avail : Int)
    global_exit_event := false
    daemon := pyOrBool daemon false
    targeted_processing := pyOrBool targeted_processing true
    delay_message_sharing := pyOrBool delay_message_sharing false
    delay_shutdown := pyOrBool delay_shutdown false
    raise_exception := pyOrBool raise_exception false
    input_datasets := []
    output_datasets := []
    configuration_datasets := [] }

namespace MState

/-- The `name` property of the manager: `ppm-{STD_NAME}`. -/
def pmName (s : MState) : String := "ppm-" ++ s.std_name

/-- Look a worker up in the heap by id. -/
def getWorker (s : MState) (i : Nat) : Worker :=
  (s.workers.find? (fun w => w.wid = i)).getD
    { wid := i, name := "", alive := false, exception := none
      concurrent_workers_names := [] }

/-- The name of the worker with id `i`. -/
def wname (s : MState) (i : Nat) : String := (s.getWorker i).name

/-- `is_running()` (core.py lines 436-444): false when `running_workers` is
empty, else true iff some running worker is alive. -/
def is_running (s : MState) : Bool :=
  if s.running_workers.isEmpty then false
  else s.running_workers.any (fun i => (s.getWorker i).alive)

/-- Update the heap entry of worker `i`. -/
def mapWorker (s : MState) (i : Nat) (f : Worker → Worker) : MState :=
  { s with workers := s.workers.map (fun w => if w.wid = i then f w else w) }

/-- `worker.start()`: the process becomes alive. -/
def startWorker (s : MState) (i : Nat) : MState :=
  s.mapWorker i (fun w => { w with alive := true })

/-- `worker.terminate()`: the process ends, so `is_alive()` is false from
then on (process death is in truth asynchronous; this is the deterministic
approximation). -/
def killWorker (s : MState) (i : Nat) : MState :=
  s.mapWorker i (fun w => { w with alive := false })

/-- `spawn_worker` (core.py lines 593-645): refuse when
`len(running_workers) >= max_workers`; otherwise build a worker named
`ppm-{STD_NAME}-{len(created_workers)+1}`, set its
`concurrent_workers_names` from `created_workers` when `is_running()` and
from `running_workers` otherwise, append it to `created_workers`, and
start it when asked.  Returns the worker object like the source. -/
def spawn_worker (s : MState) (start : Bool) :
    MState × List Event × Option Worker :=
  if (s.running_workers.length : Int) ≥ s.max_workers then (s, [], none)
  else
    let i := s.workers.length
    let w : Worker :=
      { wid := i
        name := s.pmName ++ "-" ++ toString (s.created_workers.length + 1)
        alive := false
        exception := none
        concurrent_workers_names :=
          if s.is_running then s.created_workers.map s.wname
          else s.running_workers.map s.wname }
    if start then
      let w' := { w with alive := true }
      ({ s with workers := s.workers ++ [w']
                created_workers := s.created_workers ++ [i]
                running_workers := s.running_workers ++ [i] },
       [Event.spawned i, Event.startedWorker i], some w')
    else
      ({ s with workers := s.workers ++ [w]
                created_workers := s.created_workers ++ [i] },
       [Event.spawned i], some w)

/-- The loop body of `spawn_workers`: `for _ in range(max_workers)`. -/
def spawnLoop (start : Bool) : MState → Nat → MState × List Event
  | s, 0 => (s, [])
  | s, n + 1 =>
    let r := s.spawn_worker start
    let r2 := spawnLoop start r.1 n
    (r2.1, r.2.1 ++ r2.2)

/-- `spawn_workers` (core.py lines 647-658): call `spawn_worker` once per
unit of `max_workers` (an empty range when `max_workers ≤ 0`). -/
def spawn_workers (s : MState) (start : Bool) : MState × List Event :=
  spawnLoop start s s.max_workers.toNat

/-- The `ensure_worker_spawned` decorator (core.py lines 358-371): when no
worker was created yet, first `spawn_workers(start=False)`. -/
def ensureSpawned (s : MState) : MState × List Event :=
  if s.created_workers.isEmpty then s.spawn_workers false else (s, [])

/-- The cohort a push targets: `running_workers` when `is_running()`, else
`created_workers` (core.py lines 475-478 and twins). -/
def cohort (s : MState) : List Nat :=
  if s.is_running then s.running_workers else s.created_workers

/-- `source_worker = source_worker or self.name`: Python treats both `None`
and the empty string as falsy. -/
def resolveSource (s : MState) (sw : Option String) : String :=
  match sw with
  | none => s.pmName
  | some t => if t = "" then s.pmName else t

/-- The shared body of the three `push_to_*` methods (core.py lines
446-591), which differ only in the worker call they make (`mk`).  All are
guarded by `ensure_worker_spawned`.  With `all_queues` one envelope per
cohort worker, addressed to it; otherwise one envelope to a
`random.choice` worker (the oracle `pick`), with no destination. -/
def pushEnvelopes (mk : Nat → Envelope → Event) (pick : List Nat → Nat)
    (s : MState) (data : String) (source_worker : Option String)
    (all_queues : Bool) : MState × List Event :=
  let r := s.ensureSpawned
  let s1 := r.1
  let workers := s1.cohort
  let src := s1.resolveSource source_worker
  if all_queues then
    (s1, r.2 ++ workers.map (fun i => mk i ⟨data, src, some (s1.wname i)⟩))
  else if workers.isEmpty then (s1, r.2)
  else
    let i := workers.getD (pick workers % workers.length) 0
    (s1, r.2 ++ [mk i ⟨data, src, none⟩])

/-- `push_to_input_queue` (core.py lines 446-494). -/
def push_to_input_queue (pick : List Nat → Nat) (s : MState) (data : String)
    (source_worker : Option String) (all_queues : Bool) :
    MState × List Event :=
  pushEnvelopes Event.pushedInput pick s data source_worker all_queues

/-- `push_to_output_queues` (core.py lines 496-544): same dispatch policy as
the input push, through the workers' output-forwarding API. -/
def push_to_output_queues (pick : List Nat → Nat) (s : MState) (data : String)
    (source_worker : Option String) (all_queues : Bool) :
    MState × List Event :=
  pushEnvelopes Event.pushedOutput pick s data source_worker all_queues

/-- `push_to_configuration_queue` (core.py lines 546-591). -/
def push_to_configuration_queue (pick : List Nat → Nat) (s : MState)
    (data : String) (source_worker : Option String) (all_queues : Bool) :
    MState × List Event :=
  pushEnvelopes Event.pushedConf pick s data source_worker all_queues

/-- `push_stop_signal` (core.py lines 660-673): delegates to
`push_to_input_queue("stop", source_worker=…, all_queues=True)`. -/
def push_stop_signal (pick : List Nat → Nat) (s : MState)
    (source_worker : Option String) : MState × List Event :=
  s.push_to_input_queue pick "stop" source_worker true

/-- `push_wait_signal` (core.py lines 675-688): delegates to
`push_to_input_queue("wait", source_worker=…, all_queues=True)`. -/
def push_wait_signal (pick : List Nat → Nat) (s : MState)
    (source_worker : Option String) : MState × List Event :=
  s.push_to_input_queue pick "wait" source_worker true

/-- `terminate_worker` (core.py lines 690-713): `worker.terminate()`,
`worker.join()`, then conditional removal from both cohorts. -/
def terminate_worker (s : MState) (i : Nat) : MState × List Event :=
  let s1 := s.killWorker i
  ({ s1 with running_workers := s1.running_workers.erase i
             created_workers := s1.created_workers.erase i },
   [Event.terminatedWorker i, Event.joined i])

/-- The `for worker in workers:` loop of `terminate` over the snapshot
list: skip dead workers, `terminate_worker` the live ones. -/
def termLoop : MState → List Nat → MState × List Event
  | s, [] => (s, [])
  | s, i :: rest =>
    if (s.getWorker i).alive then
      let r := s.terminate_worker i
      let r2 := termLoop r.1 rest
      (r2.1, r.2 ++ r2.2)
    else termLoop s rest

/-- `terminate` (core.py lines 715-741): snapshot
`list(set(running + created))`, set the shared exit event when non-empty,
terminate each live worker, then `push_to_output_queues("stop",
all_queues=True)` — a push that, through `ensure_worker_spawned`, spawns
fresh workers when both cohorts came up empty. -/
def terminate (pick : List Nat → Nat) (s : MState) : MState × List Event :=
  let workers := (s.running_workers ++ s.created_workers).dedup
  let r1 : MState × List Event :=
    if workers.isEmpty then (s, [])
    else ({ s with global_exit_event := true }, [Event.exitEventSet])
  let r2 := termLoop r1.1 workers
  let r3 := r2.1.push_to_output_queues pick "stop" none true
  (r3.1, r1.2 ++ r2.2 ++ r3.2)

/-- The first `for worker in self.running_workers:` loop of `wait`
(core.py lines 748-785).  Python's list iterator is index based and the
body removes the current element from the list it iterates, so after
processing position `idx` the iterator moves to position `idx + 1` of the
*shrunk* list.  The loop is written with explicit fuel; fuel at least the
length of `running_workers` is always sufficient because `idx` grows at
every step.  Body: `worker.join()`, `worker.terminate()`, remove from both
cohorts, then on a stored exception call `terminate()` and re-raise. -/
def waitRunLoopF (pick : List Nat → Nat) :
    Nat → Nat → MState → MState × List Event × Option (String × String)
  | 0, _, s => (s, [], none)
  | fuel + 1, idx, s =>
    if h : idx < s.running_workers.length then
      let i := s.running_workers.get ⟨idx, h⟩
      let s1 := s.killWorker i
      let s2 := { s1 with running_workers := s1.running_workers.erase i
                          created_workers := s1.created_workers.erase i }
      let evs := [Event.joined i, Event.terminatedWorker i]
      match (s2.getWorker i).exception with
      | some e =>
        let r := s2.terminate pick
        (r.1, evs ++ r.2, some e)
      | none =>
        let r := waitRunLoopF pick fuel (idx + 1) s2
        (r.1, evs ++ r.2.1, r.2.2)
    else (s, [], none)

/-- The second `for worker in self.created_workers:` loop of `wait`
(core.py lines 787-814), with the same index-based iterate-while-removing
semantics.  Body: `worker.terminate()`, remove from `created_workers`,
then on a stored exception call `terminate()` and re-raise. -/
def waitCreatedLoopF (pick : List Nat → Nat) :
    Nat → Nat → MState → MState × List Event × Option (String × String)
  | 0, _, s => (s, [], none)
  | fuel + 1, idx, s =>
    if h : idx < s.created_workers.length then
      let i := s.created_workers.get ⟨idx, h⟩
      let s1 := s.killWorker i
      let s2 := { s1 with created_workers := s1.created_workers.erase i }
      let evs := [Event.terminatedWorker i]
      match (s2.getWorker i).exception with
      | some e =>
        let r := s2.terminate pick
        (r.1, evs ++ r.2, some e)
      | none =>
        let r := waitCreatedLoopF pick fuel (idx + 1) s2
        (r.1, evs ++ r.2.1, r.2.2)
    else (s, [], none)

/-- `wait` (core.py lines 743-819): run both removal loops, short-circuit
on a re-raised worker exception, and finish with the unconditional
`terminate()` safety net.  The error component models the raised
exception. -/
def wait (pick : List Nat → Nat) (s : MState) :
    MState × List Event × Option (String × String) :=
  let r1 := waitRunLoopF pick s.running_workers.length 0 s
  match r1.2.2 with
  | some e => (r1.1, r1.2.1, some e)
  | none =>
    let r2 := waitCreatedLoopF pick r1.1.created_workers.length 0 r1.1
    match r2.2.2 with
    | some e => (r2.1, r1.2.1 ++ r2.2.1, some e)
    | none =>
      let r3 := r2.1.terminate pick
      (r3.1, r1.2.1 ++ r2.2.1 ++ r3.2, none)

/-- The `for worker in self.created_workers:` loop of `start`
(core.py lines 829-831): `worker.start()` and append to
`running_workers`.  The body does not mutate `created_workers`, so the
snapshot list is the iteration order. -/
def startAll : MState → List Nat → MState × List Event
  | s, [] => (s, [])
  | s, i :: rest =>
    let sk := s.startWorker i
    let s1 := { sk with running_workers := sk.running_workers ++ [i] }
    let r := startAll s1 rest
    (r.1, Event.startedWorker i :: r.2)

/-- Fold a push operation over a dataset list (the three dataset loops of
`start`, core.py lines 833-840). -/
def pushFold (push : MState → String → MState × List Event) :
    MState → List String → MState × List Event
  | s, [] => (s, [])
  | s, d :: rest =>
    let r := push s d
    let r2 := pushFold push r.1 rest
    (r2.1, r.2 ++ r2.2)

/-- `start` (core.py lines 821-842) with its three decorators applied in
source order: `ensure_worker_class_is_set` (raise `TypeError` when unset),
then `ensure_worker_spawned` (lazily spawn when no worker was created),
then `ignore_if_running` (return unchanged when a worker is running).
Then start every created worker and inject the three pre-start dataset
lists, each push tagged `source_worker="ppm"`. -/
def start (pick : List Nat → Nat) (s : MState) :
    Except String (MState × List Event) :=
  if s.worker_class_set = false then .error "WORKER_CLASS is not set."
  else
    let r0 := s.ensureSpawned
    let s0 := r0.1
    if s0.is_running then .ok (s0, r0.2)
    else
      let r1 := startAll s0 s0.created_workers
      let r2 := pushFold
        (fun st d => st.push_to_input_queue pick d (some "ppm") false)
        r1.1 s0.input_datasets
      let r3 := pushFold
        (fun st d => st.push_to_output_queues pick d (some "ppm") false)
        r2.1 s0.output_datasets
      let r4 := pushFold
        (fun st d => st.push_to_configuration_queue pick d (some "ppm") true)
        r3.1 s0.configuration_datasets
      .ok (r4.1, r0.2 ++ r1.2 ++ r2.2 ++ r3.2 ++ r4.2)

end MState

/-- Recognize a push onto the input queue of worker `i`. -/
def Event.isInputPushTo (i : Nat) : Event → Bool
  | .pushedInput j _ => j == i
  | _ => false

/-- Recognize an output-queue push whose payload is the stop token. -/
def Event.isStopOutputPush : Event → Bool
  | .pushedOutput _ e => e.payload == "stop"
  | _ => false

/-- A fixed choice oracle standing in for `random.choice`. -/
def pick0 : List Nat → Nat := fun _ => 0

/-- A manager built on a 3-CPU host with `max_workers=1` and all options
left to their defaults. -/
def baseState : MState := initManager 3 (some 1) none none none none none

/-- A manager built like `baseState` but with `max_workers=2`. -/
def baseState2 : MState := initManager 3 (some 2) none none none none none

/-- Two workers spawned without starting on `baseState` (`max_workers=1`):
`spawn_worker` only counts running workers, so both spawns succeed. -/
def twoUnstarted : MState :=
  ((baseState.spawn_worker false).1.spawn_worker false).1

/-- Two workers spawned without starting on `baseState2`. -/
def twoCreated : MState :=
  ((baseState2.spawn_worker false).1.spawn_worker false).1

/-- One worker spawned and started on `baseState`. -/
def oneRunning : MState := (baseState.spawn_worker true).1

/-- Two workers spawned and started on `baseState2`; both are alive and sit
in both cohorts. -/
def twoRunning : MState :=
  ((baseState2.spawn_worker true).1.spawn_worker true).1

/-- The state of a successful `start()` call, with a fallback for the
raising case. -/
def okState (r : Except String (MState × List Event)) (dflt : MState) :
    MState :=
  match r with
  | .ok p => p.1
  | .error _ => dflt

end ProcManager

open ProcManager

/-- C9: for every host CPU count `c`, `cpu_count` equals `c - 2` when
`c > 2` and `c` otherwise; in particular it is `2` when `c = 2` and `1`
when `c = 3`. -/
theorem claim_C9_cpu_count :
    (∀ c : Nat, cpu_count c = if c > 2 then c - 2 else c) ∧
    cpu_count 2 = 2 ∧ cpu_count 3 = 1 :=
  ⟨fun _ => rfl, rfl, rfl⟩

/-- C10: whatever value (true, false or absent) is passed for
`targeted_processing`, the constructor leaves the field true:
`targeted_processing or True` never yields false. -/
theorem claim_C10_targeted_processing_always_true (avail : Nat)
    (mw : Option Int) (d tp dms ds re : Option Bool) :
    (initManager avail mw d tp dms ds re).targeted_processing = true := by
  cases tp with
  | none => rfl
  | some b => cases b <;> rfl

/-- C4 counterexample: constructing with `max_workers = -1` stores `-1`
unclamped (the constructor assigns the backing field directly, bypassing
the property setter), so the effective value is neither `max(1, -1)` nor
at least 1. -/
theorem claim_C4_counterexample :
    (initManager 4 (some (-1)) none none none none none).max_workers = -1 ∧
    ¬ (1 ≤ (initManager 4 (some (-1)) none none none none none).max_workers) := by
  constructor
  · rfl
  · decide

/-- C4 (amended): through the property setter the effective value equals
`max(1, v)` for an integer `v` and a non-integer raises `TypeError`; at
construction, however, the setter is bypassed: a non-zero integer is
stored as given (so a negative value leaves `max_workers < 1`) and an
absent value falls back to `cpu_count`. -/
theorem claim_C4_max_workers :
    (∀ (s : MState) (n : Int),
        setMaxWorkers s (.vint n) = .ok { s with max_workers := max 1 n }) ∧
    (∀ (s : MState) (t : String),
        setMaxWorkers s (.vstr t) = .error "<value> should be <class int>.") ∧
    (∀ (avail : Nat) (n : Int), n ≠ 0 →
        (initManager avail (some n) none none none none none).max_workers = n) ∧
    (∀ avail : Nat,
        (initManager avail none none none none none none).max_workers
          = (cpu_count avail : Int)) := by
  refine ⟨fun s n => rfl, fun s t => rfl, fun avail n hn => ?_, fun avail => rfl⟩
  simp [initManager, pyOrInt, hn]

/-- C4 witness: the amended theorem applied at `v = -1`. -/
theorem claim_C4_witness :
    (initManager 4 (some (-1)) none none none none none).max_workers = -1 :=
  claim_C4_max_workers.2.2.1 4 (-1) (by decide)

/-- C7: `push_stop_signal` and `push_wait_signal` are exactly
`push_to_input_queue` of the corresponding control token with
`all_queues=true`, for every state and `source_worker` argument. -/
theorem claim_C7_signal_shorthands (pick : List Nat → Nat) (s : MState)
    (sw : Option String) :
    s.push_stop_signal pick sw = s.push_to_input_queue pick "stop" sw true ∧
    s.push_wait_signal pick sw = s.push_to_input_queue pick "wait" sw true :=
  ⟨rfl, rfl⟩

/-- C8: whenever `spawn_worker` creates a worker, its
`concurrent_workers_names` snapshot comes from `created_workers` when
`is_running()` and from `running_workers` otherwise. -/
theorem claim_C8_concurrent_names (s : MState) (st : Bool)
    (h : (s.running_workers.length : Int) < s.max_workers) :
    ((s.spawn_worker st).2.2.map (fun w => w.concurrent_workers_names))
      = some (if s.is_running then s.created_workers.map s.wname
              else s.running_workers.map s.wname) := by
  unfold ProcManager.MState.spawn_worker
  rw [if_neg (not_le.mpr h)]
  cases st <;> rfl

/-- C8 witness: the theorem applied to `baseState` (no running worker,
`max_workers = 1`). -/
theorem claim_C8_witness :
    ((ProcManager.baseState.spawn_worker false).2.2.map
        (fun w => w.concurrent_workers_names))
      = some (if ProcManager.baseState.is_running
              then ProcManager.baseState.created_workers.map
                ProcManager.baseState.wname
              else ProcManager.baseState.running_workers.map
                ProcManager.baseState.wname) :=
  claim_C8_concurrent_names baseState false (by decide)

/-- C6: a second `start()` on a manager with a running (alive) worker —
which, having been started, also sits in `created_workers` — is a no-op:
the state is returned unchanged and no worker call is made (no spawn, no
start, no dataset injection). -/
theorem claim_C6_second_start_noop (pick : List Nat → Nat) (s : MState)
    (hclass : s.worker_class_set = true)
    (hrun : s.is_running = true)
    (hcreated : s.created_workers ≠ []) :
    s.start pick = .ok (s, []) := by
  have hE : s.created_workers.isEmpty = false := by
    cases hl : s.created_workers with
    | nil => exact absurd hl hcreated
    | cons a t => rfl
  simp [ProcManager.MState.start, ProcManager.MState.ensureSpawned, hclass,
    hE, hrun]

/-- C6 witness: the theorem applied to `oneRunning`. -/
theorem claim_C6_witness :
    ProcManager.oneRunning.start ProcManager.pick0
      = .ok (ProcManager.oneRunning, []) :=
  claim_C6_second_start_noop pick0 oneRunning (by decide) (by decide)
    (by decide)

/-- C1 counterexample: on a pool with both cohorts empty (`baseState`,
`max_workers = 1`), `terminate()` does not leave both cohorts empty: the
closing `push_to_output_queues` lazily spawns a fresh worker. -/
theorem claim_C1_counterexample :
    ¬ ((ProcManager.baseState.terminate ProcManager.pick0).1.created_workers = []
        ∧ (ProcManager.baseState.terminate ProcManager.pick0).1.running_workers = []) := by
  decide

/-- C3 counterexample: with `max_workers = 1`, two `spawn_worker`
calls without starting both succeed (only running workers are counted),
and `start()` then starts both, so `|running_workers| = 2 > 1`. -/
theorem claim_C3_counterexample :
    ¬ (((ProcManager.okState
          (ProcManager.twoUnstarted.start ProcManager.pick0)
          ProcManager.twoUnstarted).running_workers.length : Int)
        ≤ ProcManager.twoUnstarted.max_workers) := by
  decide

/-- Helper for C5: a broadcast produces no input push keyed to an id that
is not in the cohort list. -/
theorem filter_inputPush_not_mem (env : Nat → Envelope) (i : Nat) :
    ∀ l : List Nat, i ∉ l →
      ((l.map (fun j => Event.pushedInput j (env j))).filter
        (Event.isInputPushTo i)) = [] := by
  intro l
  induction l with
  | nil => intro _; rfl
  | cons j t ih =>
    intro hni
    rw [List.mem_cons, not_or] at hni
    have hji : Event.isInputPushTo i (Event.pushedInput j (env j)) = false := by
      simp only [Event.isInputPushTo, beq_eq_false_iff_ne]
      exact fun h => hni.1 h.symm
    simp only [List.map_cons, List.filter_cons, hji]
    exact ih hni.2

/-- Helper for C5: on a duplicate-free cohort containing `i`, a broadcast
produces exactly one input push keyed to `i`, namely its own envelope. -/
theorem filter_inputPush_mem (env : Nat → Envelope) (i : Nat) :
    ∀ l : List Nat, l.Nodup → i ∈ l →
      ((l.map (fun j => Event.pushedInput j (env j))).filter
        (Event.isInputPushTo i)) = [Event.pushedInput i (env i)] := by
  intro l
  induction l with
  | nil => intro _ h; cases h
  | cons j t ih =>
    intro hnd hmem
    obtain ⟨hjt, hndt⟩ := List.nodup_cons.mp hnd
    rcases List.mem_cons.mp hmem with hji | hit
    · subst hji
      have hself : Event.isInputPushTo i (Event.pushedInput i (env i)) = true := by
        simp [Event.isInputPushTo]
      simp only [List.map_cons, List.filter_cons, hself]
      rw [filter_inputPush_not_mem env i t hjt]
      simp
    · have hji : Event.isInputPushTo i (Event.pushedInput j (env j)) = false := by
        simp only [Event.isInputPushTo, beq_eq_false_iff_ne]
        exact fun h => hjt (h ▸ hit)
      simp only [List.map_cons, List.filter_cons, hji]
      exact ih hndt hit

/-- C5: a broadcast `push_to_input_queue(d, all_queues=true)` delivers to
every worker of the current cohort exactly one envelope, whose payload is
`d` and whose destination is that worker's own name (the cohort is taken
duplicate-free, as the manager builds it). -/
theorem claim_C5_broadcast_exactly_once (pick : List Nat → Nat) (s : MState)
    (d : String) (sw : Option String) (i : Nat)
    (hc : s.created_workers ≠ [])
    (hnd : s.cohort.Nodup) (hi : i ∈ s.cohort) :
    ((s.push_to_input_queue pick d sw true).2.filter (Event.isInputPushTo i))
      = [Event.pushedInput i ⟨d, s.resolveSource sw, some (s.wname i)⟩] := by
  have hE : s.created_workers.isEmpty = false := by
    cases hl : s.created_workers with
    | nil => exact absurd hl hc
    | cons a t => rfl
  simp only [ProcManager.MState.push_to_input_queue,
    ProcManager.MState.pushEnvelopes, ProcManager.MState.ensureSpawned, hE,
    Bool.false_eq_true, if_false, if_true, List.nil_append]
  exact filter_inputPush_mem
    (fun j => ⟨d, s.resolveSource sw, some (s.wname j)⟩) i s.cohort hnd hi

/-- C5 witness: the theorem applied to `twoCreated` and its second worker. -/
theorem claim_C5_witness :
    ((ProcManager.twoCreated.push_to_input_queue ProcManager.pick0
        "payload" none true).2.filter (Event.isInputPushTo 1))
      = [Event.pushedInput 1
          ⟨"payload", ProcManager.twoCreated.resolveSource none,
            some (ProcManager.twoCreated.wname 1)⟩] :=
  claim_C5_broadcast_exactly_once pick0 twoCreated "payload" none 1
    (by decide) (by decide) (by decide)

/-- Helper: the `start` loop over created workers appends them all to
`running_workers`, in order, and leaves `created_workers` unchanged. -/
theorem startAll_cohorts (l : List Nat) : ∀ s : MState,
    (ProcManager.MState.startAll s l).1.running_workers
        = s.running_workers ++ l ∧
    (ProcManager.MState.startAll s l).1.created_workers
        = s.created_workers := by
  induction l with
  | nil => intro s; exact ⟨(List.append_nil _).symm, rfl⟩
  | cons i rest ih =>
    intro s
    obtain ⟨h1, h2⟩ := ih { s.startWorker i with
      running_workers := (s.startWorker i).running_workers ++ [i] }
    refine ⟨?_, ?_⟩
    · simp only [ProcManager.MState.startAll]
      rw [h1]
      simp [ProcManager.MState.startWorker, ProcManager.MState.mapWorker]
    · simp only [ProcManager.MState.startAll]
      exact h2

/-- Helper: a push on a manager that already has created workers leaves
the manager state itself unchanged — a push only calls worker methods. -/
theorem pushEnvelopes_state (mk : Nat → Envelope → Event)
    (pick : List Nat → Nat) (s : MState) (d : String) (sw : Option String)
    (aq : Bool) (h : s.created_workers ≠ []) :
    (ProcManager.MState.pushEnvelopes mk pick s d sw aq).1 = s := by
  have hE : s.created_workers.isEmpty = false := by
    cases hl : s.created_workers with
    | nil => exact absurd hl h
    | cons a t => rfl
  simp only [ProcManager.MState.pushEnvelopes,
    ProcManager.MState.ensureSpawned, hE, Bool.false_eq_true, if_false]
  cases aq
  · simp only [Bool.false_eq_true, if_false]
    split <;> rfl
  · rfl

/-- Helper: folding a state-preserving push over a dataset list preserves
the state. -/
theorem pushFold_state (f : MState → String → MState × List Event)
    (hf : ∀ s d, s.created_workers ≠ [] → (f s d).1 = s) :
    ∀ (l : List String) (s : MState), s.created_workers ≠ [] →
      (ProcManager.MState.pushFold f s l).1 = s := by
  intro l
  induction l with
  | nil => intro s _; rfl
  | cons d rest ih =>
    intro s h
    simp only [ProcManager.MState.pushFold]
    rw [hf s d h]
    exact ih s h

/-- C3 (amended): `spawn_worker` does refuse to act when
`|running_workers| ≥ max_workers`, so spawns that start their worker keep
the bound; but `start()` starts every created worker — after it,
`running_workers` is the old list extended by all of `created_workers` —
so a sequence of more than `max_workers` unstarted spawns followed by
`start()` exceeds the bound. -/
theorem claim_C3_running_bound :
    (∀ (s : MState) (st : Bool),
        s.max_workers ≤ (s.running_workers.length : Int) →
        s.spawn_worker st = (s, [], none)) ∧
    (∀ (pick : List Nat → Nat) (s : MState),
        s.worker_class_set = true → s.is_running = false →
        s.created_workers ≠ [] →
        (okState (s.start pick) s).running_workers
          = s.running_workers ++ s.created_workers) := by
  constructor
  · intro s st h
    unfold ProcManager.MState.spawn_worker
    rw [if_pos h]
  · intro pick s hclass hrun hc
    have hE : s.created_workers.isEmpty = false := by
      cases hl : s.created_workers with
      | nil => exact absurd hl hc
      | cons a t => rfl
    have hA := startAll_cohorts s.created_workers s
    have hcA : (ProcManager.MState.startAll s s.created_workers).1.created_workers ≠ [] := by
      rw [hA.2]; exact hc
    have e1 : (ProcManager.MState.pushFold
        (fun st d => st.push_to_input_queue pick d (some "ppm") false)
        (ProcManager.MState.startAll s s.created_workers).1
        s.input_datasets).1
        = (ProcManager.MState.startAll s s.created_workers).1 :=
      pushFold_state _ (fun st d h => pushEnvelopes_state _ _ _ _ _ _ h) _ _ hcA
    have e2 : (ProcManager.MState.pushFold
        (fun st d => st.push_to_output_queues pick d (some "ppm") false)
        (ProcManager.MState.startAll s s.created_workers).1
        s.output_datasets).1
        = (ProcManager.MState.startAll s s.created_workers).1 :=
      pushFold_state _ (fun st d h => pushEnvelopes_state _ _ _ _ _ _ h) _ _ hcA
    have e3 : (ProcManager.MState.pushFold
        (fun st d => st.push_to_configuration_queue pick d (some "ppm") true)
        (ProcManager.MState.startAll s s.created_workers).1
        s.configuration_datasets).1
        = (ProcManager.MState.startAll s s.created_workers).1 :=
      pushFold_state _ (fun st d h => pushEnvelopes_state _ _ _ _ _ _ h) _ _ hcA
    simp only [ProcManager.MState.start, ProcManager.MState.ensureSpawned,
      hclass, hE, Bool.false_eq_true, Bool.true_eq_false, if_false, hrun,
      okState, e1, e2, e3]
    exact hA.1

/-- C3 witness: the amended theorem applied to `twoUnstarted`
(`max_workers = 1`, two created workers). -/
theorem claim_C3_witness :
    (okState (ProcManager.twoUnstarted.start ProcManager.pick0)
        ProcManager.twoUnstarted).running_workers
      = ProcManager.twoUnstarted.running_workers
          ++ ProcManager.twoUnstarted.created_workers :=
  claim_C3_running_bound.2 pick0 twoUnstarted (by decide) (by decide)
    (by decide)

/-- Helper: spawning `n` workers without starting, from a state with no
running worker and a positive `max_workers`, leaves `running_workers`
empty, grows `created_workers` by `n`, keeps `max_workers`, and performs
no output push. -/
theorem spawnLoop_unstarted (n : Nat) : ∀ s : MState,
    s.running_workers = [] → 0 < s.max_workers →
    (ProcManager.MState.spawnLoop false s n).1.running_workers = [] ∧
    (ProcManager.MState.spawnLoop false s n).1.created_workers.length
      = s.created_workers.length + n ∧
    (ProcManager.MState.spawnLoop false s n).1.max_workers
      = s.max_workers ∧
    (∀ e ∈ (ProcManager.MState.spawnLoop false s n).2,
        Event.isStopOutputPush e = false) := by
  induction n with
  | zero =>
    intro s h1 _
    exact ⟨h1, rfl, rfl, fun e he => absurd he (List.not_mem_nil e)⟩
  | succ n ih =>
    intro s h1 h2
    have hguard : ¬ ((s.running_workers.length : Int) ≥ s.max_workers) := by
      rw [h1]
      simpa using h2
    simp only [ProcManager.MState.spawnLoop, ProcManager.MState.spawn_worker,
      if_neg hguard, Bool.false_eq_true, if_false]
    obtain ⟨g1, g2, g3, g4⟩ := ih
      { s with
        workers := s.workers ++
          [{ wid := s.workers.length
             name := s.pmName ++ "-" ++ toString (s.created_workers.length + 1)
             alive := false
             exception := none
             concurrent_workers_names :=
               if s.is_running then s.created_workers.map s.wname
               else s.running_workers.map s.wname }]
        created_workers := s.created_workers ++ [s.workers.length] }
      h1 h2
    refine ⟨g1, ?_, g3, ?_⟩
    · rw [g2]
      simp only [List.length_append, List.length_cons, List.length_nil]
      omega
    · intro e he
      rcases List.mem_append.mp he with h | h
      · rcases List.mem_singleton.mp h with rfl
        rfl
      · exact g4 e h

/-- C1 (amended): a second `terminate()` on an already-empty pool still
pushes `"stop"` to the output channels and leaves `running_workers`
empty, but `created_workers` is not left empty: the closing output push
lazily spawns `max_workers` fresh never-started workers and the stop
envelopes go to them, one each. -/
theorem claim_C1_terminate_on_empty (pick : List Nat → Nat) (s : MState)
    (hc : s.created_workers = []) (hr : s.running_workers = [])
    (hm : 1 ≤ s.max_workers) :
    (s.terminate pick).1.running_workers = [] ∧
    (s.terminate pick).1.created_workers.length = s.max_workers.toNat ∧
    ((s.terminate pick).2.filter Event.isStopOutputPush).length
      = s.max_workers.toNat := by
  obtain ⟨l1, l2, l3, l4⟩ :=
    spawnLoop_unstarted s.max_workers.toNat s hr (by omega)
  have hrunning : (ProcManager.MState.spawnLoop false s
      s.max_workers.toNat).1.is_running = false := by
    simp [ProcManager.MState.is_running, l1]
  have hfilterL : ((ProcManager.MState.spawnLoop false s
      s.max_workers.toNat).2.filter Event.isStopOutputPush) = [] := by
    rw [List.filter_eq_nil_iff]
    intro e he
    simp [l4 e he]
  have hfilterM : ∀ src : String,
      (((ProcManager.MState.spawnLoop false s
          s.max_workers.toNat).1.created_workers.map (fun i =>
        Event.pushedOutput i
          ⟨"stop", src, some ((ProcManager.MState.spawnLoop false s
              s.max_workers.toNat).1.wname i)⟩)).filter
        Event.isStopOutputPush).length
      = (ProcManager.MState.spawnLoop false s
          s.max_workers.toNat).1.created_workers.length := by
    intro src
    rw [List.filter_eq_self.mpr]
    · rw [List.length_map]
    · intro e he
      obtain ⟨i, _, rfl⟩ := List.mem_map.mp he
      rfl
  have hced : s.created_workers.length = 0 := by rw [hc]; rfl
  simp only [ProcManager.MState.terminate, hc, hr, List.append_nil,
    List.dedup_nil, List.isEmpty_nil, if_true,
    ProcManager.MState.termLoop, ProcManager.MState.push_to_output_queues,
    ProcManager.MState.pushEnvelopes, ProcManager.MState.ensureSpawned,
    List.isEmpty_nil, ProcManager.MState.spawn_workers,
    ProcManager.MState.cohort, hrunning, Bool.false_eq_true, if_false,
    if_true, List.nil_append, List.filter_append, hfilterL,
    List.length_append, List.length_nil]
  refine ⟨l1, ?_, ?_⟩
  · rw [l2, hced]; omega
  · rw [hfilterM]
    rw [l2, hced]
    omega

/-- C1 witness: the amended theorem applied to `baseState` (empty pool,
`max_workers = 1`). -/
theorem claim_C1_witness :
    (ProcManager.baseState.terminate ProcManager.pick0).1.running_workers = [] ∧
    (ProcManager.baseState.terminate ProcManager.pick0).1.created_workers.length
      = ProcManager.baseState.max_workers.toNat ∧
    ((ProcManager.baseState.terminate ProcManager.pick0).2.filter
        Event.isStopOutputPush).length
      = ProcManager.baseState.max_workers.toNat :=
  claim_C1_terminate_on_empty pick0 baseState rfl rfl (by decide)

/-- C2: evaluating `wait()` on `twoRunning` (two alive running workers,
no stored exception).  Because the loop removes the current element from
the list it iterates, the second worker (wid 1) is skipped: it is never
joined, only force-terminated by the `created_workers` sweep, and it is
still in `running_workers` when `wait()` returns — against the claim that
every running worker is joined in turn and removed from both cohorts. -/
theorem claim_C2_wait_skips_second_worker :
    ProcManager.twoRunning.running_workers = [0, 1] ∧
    (ProcManager.twoRunning.getWorker 0).alive = true ∧
    (ProcManager.twoRunning.getWorker 1).alive = true ∧
    Event.joined 1 ∉ (ProcManager.twoRunning.wait ProcManager.pick0).2.1 ∧
    (ProcManager.twoRunning.wait ProcManager.pick0).1.running_workers = [1] := by
  decide
